import Mathlib

/-
Verification of the archive CLI tools (TypeScript source) against their
natural-language specification.  The TypeScript utilities are shallowly
embedded: pure string manipulation becomes functions on `String` and
`List Char`; filesystem and network effects become explicit environment
functions (`String → Except String _`) and event traces; asynchronous
batch processing becomes explicit list recursion mirroring each call
site's control flow (sequential loop with try/catch, `Promise.all`
aggregation, or sequential abort-on-throw).
-/

/-! ## String primitives shared by the embedded utilities -/

/-- Character class of the JavaScript regex `\s` (and of `String.prototype.trim`):
space, tab, LF, VT, FF, CR, NBSP, and the Unicode space separators used by
ECMAScript. -/
def jsWhitespace (c : Char) : Bool :=
  c == ' ' || c == '\t' || c == '\n' || c == '\r' ||
  c.toNat == 0x0b || c.toNat == 0x0c || c.toNat == 0xa0 || c.toNat == 0x1680 ||
  (decide (0x2000 ≤ c.toNat) && decide (c.toNat ≤ 0x200a)) ||
  c.toNat == 0x2028 || c.toNat == 0x2029 || c.toNat == 0x202f ||
  c.toNat == 0x205f || c.toNat == 0x3000 || c.toNat == 0xfeff

/-- Embeds JavaScript `String.prototype.trim`: strip leading and trailing
whitespace. -/
def jsTrim (cs : List Char) : List Char :=
  ((cs.dropWhile jsWhitespace).reverse.dropWhile jsWhitespace).reverse

/-- Embeds `filename.substring(0, filename.lastIndexOf('.'))`: everything
strictly before the last dot; the empty list when there is no dot (JS
`lastIndexOf` returns -1 and `substring(0, -1)` clamps to the empty string). -/
def stripAfterLastDot (cs : List Char) : List Char :=
  match cs.reverse.dropWhile (fun c => c != '.') with
  | [] => []
  | _ :: rest => rest.reverse

/-- Helper for `replaceWsRuns`; the Bool records whether the previous
character belonged to a whitespace run already replaced. -/
def replaceWsRunsAux (repl : Char) : Bool → List Char → List Char
  | _, [] => []
  | prevWs, c :: cs =>
    if jsWhitespace c then
      if prevWs then replaceWsRunsAux repl true cs
      else repl :: replaceWsRunsAux repl true cs
    else c :: replaceWsRunsAux repl false cs

/-- Embeds `s.replace(/\s+/g, repl)`: each maximal run of whitespace is
replaced by a single copy of `repl`. -/
def replaceWsRuns (repl : Char) (cs : List Char) : List Char :=
  replaceWsRunsAux repl false cs

/-- The character class `[a-zA-Z0-9-]` kept by the slug sanitizer
(`replace(/[^a-zA-Z0-9-]/g, '')` keeps exactly these). -/
def isSlugChar (c : Char) : Bool :=
  (decide ('a' ≤ c) && decide (c ≤ 'z')) ||
  (decide ('A' ≤ c) && decide (c ≤ 'Z')) ||
  (decide ('0' ≤ c) && decide (c ≤ '9')) || c == '-'

/-- ASCII lowercasing, embedding `String.prototype.toLowerCase` for the
ASCII-only uses in the source (extension and suffix checks). -/
def lowerStr (s : String) : String :=
  ⟨s.data.map Char.toLower⟩

/-- Embeds `String.prototype.endsWith`. -/
def endsWithStr (s suff : String) : Bool :=
  suff.data.isSuffixOf s.data

/-- Embeds Node `path.basename` for plain file paths: the part after the
last `/`. -/
def basenameStr (p : String) : String :=
  ⟨(p.data.reverse.takeWhile (fun c => c != '/')).reverse⟩

/-- Embeds Node `path.extname` for plain file names: the suffix starting at
the last dot of the basename, unless that dot is the first character (then
there is no extension). -/
def extname (p : String) : String :=
  let cs := (basenameStr p).data
  let afterRev := cs.reverse.takeWhile (fun c => c != '.')
  if afterRev.length + 2 ≤ cs.length then ⟨'.' :: afterRev.reverse⟩ else ⟨[]⟩

/-- Substring test (`hay` contains `needle`), used to state what a produced
markdown file contains. -/
def containsSub (hay needle : String) : Bool :=
  hay.data.tails.any (fun t => needle.data.isPrefixOf t)

/-! ## DirectoryMaker (src/utils/directory-maker.ts) -/

/-- The metadata record built by `DirectoryMaker.extractMetadata`. -/
structure FileMetadata where
  sanitizedFileName : String
  sanitizedTitle : String
  awsImage : String
  download : String

/-- Embeds `DirectoryMaker.extractMetadata` (directory-maker.ts:121-146):
strip the extension and trim; slug = whitespace runs to `-` then delete
characters outside `[a-zA-Z0-9-]`; title = the stripped name; image and
download URLs interpolate the `+`-substituted title / original filename.
`pfx` models the constructor's `prefix` field. -/
def extractMetadata (pfx awsLocation : String) (filename : String) : FileMetadata :=
  let fileNameWithoutExt : List Char := jsTrim (stripAfterLastDot filename.data)
  { sanitizedFileName := ⟨(replaceWsRuns '-' fileNameWithoutExt).filter isSlugChar⟩
    sanitizedTitle := ⟨fileNameWithoutExt⟩
    awsImage := awsLocation ++ "/" ++ pfx ++ "/images/" ++
      String.mk (replaceWsRuns '+' fileNameWithoutExt) ++ ".jpeg"
    download := awsLocation ++ "/" ++ pfx ++ "/documents/" ++
      String.mk (replaceWsRuns '+' filename.data) }

/-- Embeds `DirectoryMaker.generateMarkdownContent` (directory-maker.ts:153-164)
after `outdent` strips the four-space template indentation: front matter with
the keys in the fixed order title, slug, description, code, image, download. -/
def generateMarkdownContent (m : FileMetadata) : String :=
  "---\n    title: " ++ m.sanitizedTitle ++
  "\n    slug: " ++ m.sanitizedFileName ++
  "\n    description:\n    code: " ++ m.sanitizedFileName ++
  "\n    image: " ++ m.awsImage ++
  "\n    download: " ++ m.download ++ "\n---"

/-- Embeds `DirectoryMaker.processFile` (directory-maker.ts:85-114).  The
filesystem write is an explicit environment `write`; on success the returned
value records the written path and contents (`none` for skipped non-PDF
files); a write failure is rethrown. -/
def processFileMd (write : String → String → Except String Unit)
    (pfx awsLocation outputDir filename : String) :
    Except String (Option (String × String)) :=
  if !(endsWithStr (lowerStr filename) ".pdf") then Except.ok none
  else
    let m := extractMetadata pfx awsLocation filename
    let contents := generateMarkdownContent m
    let outputPath := outputDir ++ "/" ++ m.sanitizedFileName ++ ".md"
    match write outputPath contents with
    | Except.error e => Except.error e
    | Except.ok _ => Except.ok (some (outputPath, contents))

/-- Result aggregation of `Promise.all`: every element is evaluated, and the
aggregate is the first rejection in list order, else the list of results. -/
def promiseAll {α : Type} : List (Except String α) → Except String (List α)
  | [] => Except.ok []
  | r :: rest =>
    match r, promiseAll rest with
    | Except.error e, _ => Except.error e
    | Except.ok _, Except.error e => Except.error e
    | Except.ok a, Except.ok as => Except.ok (a :: as)

/-- `path.join(process.cwd(), outputBasePath, prefix)`, the output directory
ensured by `createFilesFromDirectory`. -/
def outputDirFor (cwd outputBasePath pfx : String) : String :=
  cwd ++ "/" ++ outputBasePath ++ "/" ++ pfx

/-- Embeds `DirectoryMaker.createFilesFromDirectory` (directory-maker.ts:50-78):
ensures the namespace directory (first component) and processes every
directory entry through `processFile` under `Promise.all` aggregation. -/
def createFilesFromDirectory (write : String → String → Except String Unit)
    (pfx awsLocation outputBasePath cwd : String) (files : List String) :
    String × Except String (List (Option (String × String))) :=
  let outputDir := outputDirFor cwd outputBasePath pfx
  (outputDir, promiseAll (files.map (processFileMd write pfx awsLocation outputDir)))

/-- An always-succeeding filesystem write, used to observe the pure part of
`processFile`. -/
def writeOk : String → String → Except String Unit := fun _ _ => Except.ok ()

/-! ## ImagePreviewMaker (src/utils/image-preview-maker.ts) -/

/-- The per-file body of `ImagePreviewMaker.createPreviews` (lines 135-150):
each PDF is converted inside a try/catch, so a failing conversion is logged
and skipped while later files still run; the result collects the outputs of
the successful conversions in order. -/
def createPreviewsLoop (convert : String → Except String String) :
    List String → List String
  | [] => []
  | f :: fs =>
    match convert f with
    | Except.ok out => out :: createPreviewsLoop convert fs
    | Except.error _ => createPreviewsLoop convert fs

/-- Embeds `ImagePreviewMaker.createPreviews` (image-preview-maker.ts:118-157):
filter the directory listing to `.pdf` files (via `path.extname`), then run
the sequential per-file conversion loop with per-item error isolation. -/
def createPreviews (convert : String → Except String String)
    (files : List String) : List String :=
  createPreviewsLoop convert
    (files.filter (fun f => lowerStr (extname f) == ".pdf"))

/-! ## S3Uploader (src/s3-uploader.ts, provided unnamed) -/

/-- The `UploadOptions` interface of the uploader. -/
structure UploadOptions where
  bucket : String
  region : String
  localPath : String
  defaultCategory : Option String
  dryRun : Bool

/-- Embeds `S3Uploader.getMimeType` (fixed extension-to-content-type map). -/
def getMimeType (filePath : String) : String :=
  let ext := lowerStr (extname filePath)
  if ext == ".pdf" then "application/pdf"
  else if ext == ".jpg" then "image/jpeg"
  else if ext == ".jpeg" then "image/jpeg"
  else if ext == ".png" then "image/png"
  else if ext == ".gif" then "image/gif"
  else if ext == ".webp" then "image/webp"
  else "application/octet-stream"

/-- Embeds `S3Uploader.getS3Key`: `.pdf` files go under `documents/`, every
other file under `images/`; the key keeps the file name verbatim. -/
def getS3Key (fileName category : String) : String :=
  let ext := lowerStr (extname fileName)
  let subfolder := if ext == ".pdf" then "documents" else "images"
  category ++ "/" ++ subfolder ++ "/" ++ fileName

/-- `this.options.defaultCategory || 'misc'` (JS falsy default: absent or
empty category falls back to `misc`). -/
def categoryOf (opts : UploadOptions) : String :=
  match opts.defaultCategory with
  | none => "misc"
  | some c => if c == "" then "misc" else c

/-- Observable effects of one `uploadFile` call: the dry-run log line, the
`PutObjectCommand` sent to S3, and the success log line (each log carries the
bucket and key it printed). -/
inductive UpEvent where
  | logDryRun (bucket key : String)
  | put (bucket key body contentType : String)
  | logUploaded (bucket key : String)

/-- Embeds `S3Uploader.uploadFile` (lines 91-118).  The local filesystem is
the environment `fsRead`; the dry-run branch returns before any read; the
real branch reads the file, then issues the Put (network success is part of
the environment model) and logs.  A read failure is rethrown.  Note the
`relativeFilePath` parameter is accepted but never used, exactly as in the
source. -/
def uploadFile (fsRead : String → Except String String) (opts : UploadOptions)
    (localFilePath relativeFilePath : String) :
    Except String Unit × List UpEvent :=
  let fileName := basenameStr localFilePath
  let category := categoryOf opts
  let s3Key := getS3Key fileName category
  if opts.dryRun then (Except.ok (), [UpEvent.logDryRun opts.bucket s3Key])
  else
    match fsRead localFilePath with
    | Except.error e => (Except.error e, [])
    | Except.ok fileContent =>
      let contentType := getMimeType localFilePath
      (Except.ok (), [UpEvent.put opts.bucket s3Key fileContent contentType,
                      UpEvent.logUploaded opts.bucket s3Key])

/-- A local directory tree entry, input of the walker. -/
inductive FsEntry where
  | file (name : String)
  | dir (name : String) (entries : List FsEntry)

/-- The extension allow-list of `uploadAll`. -/
def validAllowed : List String :=
  [".pdf", ".jpg", ".jpeg", ".png", ".gif", ".webp"]

/-- `path.join` for the relative path accumulator (`path.join('', e) = e`). -/
def joinRel (r name : String) : String :=
  if r == "" then name else r ++ "/" ++ name

mutual

/-- One entry of `S3Uploader.walkDirectory` (lines 128-159): a matching file
yields its `(fullPath, relativePath)` pair; a directory is recursed into with
the extended paths, its files spliced in at this position. -/
def walkEntry (dirPath relPath : String) : FsEntry → List (String × String)
  | FsEntry.file name =>
    if validAllowed.contains (lowerStr (extname name)) then
      [(dirPath ++ "/" ++ name, joinRel relPath name)]
    else []
  | FsEntry.dir name entries =>
    walkList (dirPath ++ "/" ++ name) (joinRel relPath name) entries

/-- The entry loop of `S3Uploader.walkDirectory` over one directory listing. -/
def walkList (dirPath relPath : String) : List FsEntry → List (String × String)
  | [] => []
  | e :: rest => walkEntry dirPath relPath e ++ walkList dirPath relPath rest

end

/-- The sequential upload loop of `S3Uploader.uploadAll` (lines 190-195):
files are uploaded one after another and the first thrown error aborts the
remaining items; events of completed calls are concatenated in order. -/
def uploadAllLoop (fsRead : String → Except String String)
    (opts : UploadOptions) :
    List (String × String) → Except String Unit × List UpEvent
  | [] => (Except.ok (), [])
  | (fp, rp) :: rest =>
    match uploadFile fsRead opts fp rp with
    | (Except.error e, evs) => (Except.error e, evs)
    | (Except.ok _, evs) =>
      match uploadAllLoop fsRead opts rest with
      | (r, evs2) => (r, evs ++ evs2)

/-- Embeds `S3Uploader.uploadAll` (lines 165-200): walk the local tree with
the extension allow-list, then upload the found files sequentially. -/
def uploadAll (fsRead : String → Except String String) (opts : UploadOptions)
    (tree : List FsEntry) : Except String Unit × List UpEvent :=
  uploadAllLoop fsRead opts (walkList opts.localPath "" tree)

/-- Counts the Put requests in an event trace. -/
def putCount (evs : List UpEvent) : Nat :=
  (evs.filter (fun e => match e with | UpEvent.put _ _ _ _ => true | _ => false)).length

/-- The keys logged by dry-run lines, in order. -/
def dryRunKeys (evs : List UpEvent) : List String :=
  evs.filterMap (fun e => match e with | UpEvent.logDryRun _ k => some k | _ => none)

/-- The keys of the Put requests actually issued, in order. -/
def putKeys (evs : List UpEvent) : List String :=
  evs.filterMap (fun e => match e with | UpEvent.put _ k _ _ => some k | _ => none)

/-- Per-item completions: a dry-run log or an uploaded log, one per item the
run finished successfully. -/
def successCount (evs : List UpEvent) : Nat :=
  (evs.filter (fun e => match e with
    | UpEvent.logDryRun _ _ => true
    | UpEvent.logUploaded _ _ => true
    | _ => false)).length

/-- S3 bucket contents as key-value pairs, most recent Put first. -/
def applyPut (bkt : List (String × String)) : UpEvent → List (String × String)
  | UpEvent.put _ k body _ => (k, body) :: bkt
  | _ => bkt

/-- The bucket state after replaying an event trace. -/
def bucketAfter (evs : List UpEvent) : List (String × String) :=
  evs.foldl applyPut []

/-- Object lookup: the most recent Put for the key wins. -/
def getObject (bkt : List (String × String)) (k : String) : Option String :=
  (bkt.find? (fun kv => kv.1 == k)).map (fun kv => kv.2)

/-! ## S3Downloader (src/utils/s3-downloader.ts) -/

/-- `maxKeys: restConfig.maxKeys || 1000` — a zero (falsy) page size falls
back to 1000, so the effective page size is always positive. -/
def effMaxKeys (mk : Nat) : Nat :=
  if mk == 0 then 1000 else mk

/-- The pages returned by the ListObjectsV2 do/while loop of
`S3Downloader.listObjects` (lines 65-97) against a remote listing: each
request returns up to `m + 1` keys (`m + 1` is the positive MaxKeys) and a
continuation token exactly when keys remain; the loop requests again until
the token is absent.  One request is always made, so an empty listing still
costs one page. -/
def listPagesAux (m : Nat) (remaining : List String) : List (List String) :=
  if remaining.length ≤ m + 1 then [remaining]
  else remaining.take (m + 1) :: listPagesAux m (remaining.drop (m + 1))
termination_by remaining.length
decreasing_by
  simp only [List.length_drop]
  omega

/-- Embeds `S3Downloader.listObjects`: all keys collected across the pages in
page order, paired with the number of requests made. -/
def listObjects (mk : Nat) (remoteKeys : List String) : List String × Nat :=
  let pages := listPagesAux (effMaxKeys mk - 1) remoteKeys
  (pages.flatten, pages.length)

/-- Embeds `S3Downloader.downloadFile` (lines 109-145): keys ending in `/`
are directory markers and skipped; otherwise the fetch-and-write effect `dl`
runs and its failure is rethrown. -/
def downloadFileM (dl : String → Except String Unit) (key : String) :
    Except String Unit :=
  if endsWithStr key "/" then Except.ok () else dl key

/-- The batches of 5 formed by `downloadAll` (`objects.slice(i, i + 5)`). -/
def chunksOf5 : List String → List (List String)
  | [] => []
  | [a] => [[a]]
  | [a, b] => [[a, b]]
  | [a, b, c] => [[a, b, c]]
  | [a, b, c, d] => [[a, b, c, d]]
  | a :: b :: c :: d :: e :: rest => [a, b, c, d, e] :: chunksOf5 rest

/-- The batch loop of `S3Downloader.downloadAll` (lines 164-187): batches run
in order under `Promise.all`; a failing batch rethrows and the remaining
batches are not started. -/
def downloadAllLoop (dl : String → Except String Unit) :
    List (List String) → Except String Unit
  | [] => Except.ok ()
  | batch :: rest =>
    match promiseAll (batch.map (downloadFileM dl)) with
    | Except.error e => Except.error e
    | Except.ok _ => downloadAllLoop dl rest

/-- Embeds `S3Downloader.downloadAll` applied to an already-listed set of
keys. -/
def downloadAll (dl : String → Except String Unit) (keys : List String) :
    Except String Unit :=
  downloadAllLoop dl (chunksOf5 keys)

/-! ## Helper lemmas -/

/-- `replace(/\s+/g, repl)` leaves a string without whitespace unchanged,
whatever the run-state flag. -/
theorem replaceWsRunsAux_id (repl : Char) (b : Bool) (cs : List Char)
    (h : cs.all (fun c => !jsWhitespace c) = true) :
    replaceWsRunsAux repl b cs = cs := by
  induction cs generalizing b with
  | nil => rfl
  | cons c cs ih =>
    rw [List.all_cons, Bool.and_eq_true] at h
    have hc : jsWhitespace c = false := by
      have h1 := h.1
      rw [Bool.not_eq_true'] at h1
      exact h1
    simp only [replaceWsRunsAux, hc, Bool.false_eq_true, if_false]
    exact congrArg (c :: ·) (ih false h.2)

/-! ## Claim C3 -/

/-- Claim C3: `sanitizedFileName` is obtained by stripping the text after the
final dot, trimming, replacing each whitespace run with one hyphen, then
deleting every character outside `[A-Za-z0-9-]`; hence every character of the
result is in `[A-Za-z0-9-]`, and `"ADK 1152 v2.pdf"` derives the slug
`"ADK-1152-v2"`. -/
theorem C3_sanitizedFileName_spec :
    (∀ pfx aws filename : String,
        (extractMetadata pfx aws filename).sanitizedFileName
          = String.mk ((replaceWsRuns '-'
              (jsTrim (stripAfterLastDot filename.data))).filter isSlugChar))
  ∧ (∀ pfx aws filename : String,
        ((extractMetadata pfx aws filename).sanitizedFileName).data.all isSlugChar
          = true)
  ∧ (extractMetadata "mini" "https://bucket.s3.amazonaws.com"
        "ADK 1152 v2.pdf").sanitizedFileName = "ADK-1152-v2" := by
  refine ⟨fun _ _ _ => rfl, fun pfx aws filename => ?_, rfl⟩
  rw [List.all_eq_true]
  intro c hc
  exact (List.mem_filter.mp hc).2

/-! ## Claim C4 -/

/-- The image URL as claim C4 literally words it: each space character of the
title is substituted by `+` and every other character (including every other
whitespace character) passes through unchanged. -/
def specC4ImageUrl (pfx aws filename : String) : String :=
  aws ++ "/" ++ pfx ++ "/images/" ++
    String.mk ((jsTrim (stripAfterLastDot filename.data)).map
      (fun c => if c == ' ' then '+' else c)) ++ ".jpeg"

/-- Claim C4 counterexample: for `"A  B.pdf"` (two spaces) the code collapses
the whitespace run to a single `+`, whereas substituting each space by `+`
as the claim states would give two, so the claimed URL differs from the
derived one. -/
theorem C4_counterexample :
    (extractMetadata "p" "b" "A  B.pdf").awsImage = "b/p/images/A+B.jpeg"
  ∧ specC4ImageUrl "p" "b" "A  B.pdf" = "b/p/images/A++B.jpeg"
  ∧ (extractMetadata "p" "b" "A  B.pdf").awsImage ≠ specC4ImageUrl "p" "b" "A  B.pdf" := by
  refine ⟨rfl, rfl, ?_⟩
  decide

/-- Claim C4 (amended): the image URL is
`{base}/{prefix}/images/{title with each whitespace run substituted by a
single plus}.jpeg` and the download URL is
`{base}/{prefix}/documents/{original filename with each whitespace run
substituted by a single plus}`; characters outside the whitespace class pass
through unescaped, and the title `"ADK 1152"` yields an image URL ending in
`/images/ADK+1152.jpeg`. -/
theorem C4_urls :
    (∀ pfx aws filename : String,
        (extractMetadata pfx aws filename).awsImage
          = aws ++ "/" ++ pfx ++ "/images/" ++
              String.mk (replaceWsRuns '+'
                (jsTrim (stripAfterLastDot filename.data))) ++ ".jpeg")
  ∧ (∀ pfx aws filename : String,
        (extractMetadata pfx aws filename).download
          = aws ++ "/" ++ pfx ++ "/documents/" ++
              String.mk (replaceWsRuns '+' filename.data))
  ∧ (∀ cs : List Char, cs.all (fun c => !jsWhitespace c) = true →
        replaceWsRuns '+' cs = cs)
  ∧ (extractMetadata "mini" "https://bucket.s3.amazonaws.com"
        "ADK 1152.pdf").awsImage
      = "https://bucket.s3.amazonaws.com/mini/images/ADK+1152.jpeg" := by
  refine ⟨fun _ _ _ => rfl, fun _ _ _ => rfl,
    fun cs h => replaceWsRunsAux_id '+' false cs h, rfl⟩

/-- Claim C4 witness: the pass-through conjunct applied to the concrete
whitespace-free title `"ADK1152"`. -/
theorem C4_urls_witness :
    replaceWsRuns '+' "ADK1152".data = "ADK1152".data :=
  C4_urls.2.2.1 "ADK1152".data (by decide)

/-! ## Claim C1 -/

/-- Claim C1 counterexample: for `"###.pdf"` the sanitized name collapses to
the empty string, yet metadata derivation succeeds (no `InvalidFilename`
error exists in the code) and `processFile` writes a markdown file named
`.md`. -/
theorem C1_counterexample :
    (extractMetadata "mini" "https://b" "###.pdf").sanitizedFileName = ""
  ∧ processFileMd writeOk "mini" "https://b" "out" "###.pdf"
      = Except.ok (some ("out/.md",
          generateMarkdownContent (extractMetadata "mini" "https://b" "###.pdf"))) := by
  exact ⟨rfl, rfl⟩

/-- Claim C1 (amended): metadata derivation never fails — when the writes
succeed, `processFile` succeeds for every filename; a filename whose
sanitized form collapses to the empty string yields metadata with an empty
`sanitizedFileName`, and the markdown file written for it is named `.md`
inside the output directory. -/
theorem C1_no_empty_slug_check :
    (∀ pfx aws dir filename : String,
        ∃ r, processFileMd writeOk pfx aws dir filename = Except.ok r)
  ∧ (extractMetadata "mini" "https://b" "###.pdf").sanitizedFileName = ""
  ∧ (∀ dir : String,
        processFileMd writeOk "mini" "https://b" dir "###.pdf"
          = Except.ok (some (dir ++ "/" ++ "" ++ ".md",
              generateMarkdownContent
                (extractMetadata "mini" "https://b" "###.pdf")))) := by
  refine ⟨fun pfx aws dir filename => ?_, rfl, fun dir => rfl⟩
  unfold processFileMd
  split
  · exact ⟨none, rfl⟩
  · exact ⟨some _, rfl⟩

/-! ## Claim C8 -/

set_option maxRecDepth 16384 in
/-- Claim C8: for each accepted (PDF) input, markdown emission writes
`{slug}.md` inside the ensured namespace directory, with the front-matter
keys in the fixed order title, slug, description, code, image, download;
for `ADK1152.pdf` with prefix `mini` and base
`https://bucket.s3.amazonaws.com` the output file is `ADK1152.md` and its
contents contain `slug: ADK1152` and
`download: https://bucket.s3.amazonaws.com/mini/documents/ADK1152.pdf`. -/
theorem C8_markdown_emission :
    (∀ (write : String → String → Except String Unit)
        (pfx aws outputBasePath cwd : String) (files : List String),
        (createFilesFromDirectory write pfx aws outputBasePath cwd files).1
          = cwd ++ "/" ++ outputBasePath ++ "/" ++ pfx)
  ∧ (∀ pfx aws dir filename : String,
        endsWithStr (lowerStr filename) ".pdf" = true →
        processFileMd writeOk pfx aws dir filename
          = Except.ok (some
              (dir ++ "/" ++ (extractMetadata pfx aws filename).sanitizedFileName
                 ++ ".md",
               generateMarkdownContent (extractMetadata pfx aws filename))))
  ∧ (∀ m : FileMetadata,
        generateMarkdownContent m
          = "---\n    title: " ++ m.sanitizedTitle ++
            "\n    slug: " ++ m.sanitizedFileName ++
            "\n    description:\n    code: " ++ m.sanitizedFileName ++
            "\n    image: " ++ m.awsImage ++
            "\n    download: " ++ m.download ++ "\n---")
  ∧ processFileMd writeOk "mini" "https://bucket.s3.amazonaws.com"
        "content/archive/mini" "ADK1152.pdf"
      = Except.ok (some ("content/archive/mini/ADK1152.md",
          generateMarkdownContent
            (extractMetadata "mini" "https://bucket.s3.amazonaws.com" "ADK1152.pdf")))
  ∧ containsSub
        (generateMarkdownContent
          (extractMetadata "mini" "https://bucket.s3.amazonaws.com" "ADK1152.pdf"))
        "slug: ADK1152" = true
  ∧ containsSub
        (generateMarkdownContent
          (extractMetadata "mini" "https://bucket.s3.amazonaws.com" "ADK1152.pdf"))
        "download: https://bucket.s3.amazonaws.com/mini/documents/ADK1152.pdf"
        = true := by
  refine ⟨fun _ _ _ _ _ _ => rfl, fun pfx aws dir filename h => ?_,
    fun _ => rfl, rfl, by decide, by decide⟩
  unfold processFileMd
  rw [h]
  rfl

/-- Claim C8 witness: the per-file conjunct applied to the concrete input
`ADK1152.pdf`. -/
theorem C8_markdown_emission_witness :
    processFileMd writeOk "mini" "https://bucket.s3.amazonaws.com"
        "content/archive/mini" "ADK1152.pdf"
      = Except.ok (some
          ("content/archive/mini" ++ "/" ++
             (extractMetadata "mini" "https://bucket.s3.amazonaws.com"
               "ADK1152.pdf").sanitizedFileName ++ ".md",
           generateMarkdownContent
             (extractMetadata "mini" "https://bucket.s3.amazonaws.com"
               "ADK1152.pdf"))) :=
  C8_markdown_emission.2.1 "mini" "https://bucket.s3.amazonaws.com"
    "content/archive/mini" "ADK1152.pdf" rfl

/-! ## Claim C2 -/

/-- Claim C2: with exactly one item of a batch failing, preview generation
still converts every remaining PDF (3 inputs with item 2 failing yield the
outputs of items 1 and 3), while markdown generation, S3 upload and S3
download propagate the failure out of the batch and abort it (for the
sequential upload loop, no Put is issued after the failing item). -/
theorem C2_failure_isolation :
    (∀ (convert : String → Except String String) (o1 o3 e : String),
        convert "a.pdf" = Except.ok o1 → convert "b.pdf" = Except.error e →
        convert "c.pdf" = Except.ok o3 →
        createPreviews convert ["a.pdf", "b.pdf", "c.pdf"] = [o1, o3])
  ∧ (∀ (write : String → String → Except String Unit) (e : String)
        (pfx aws cwd : String),
        write (cwd ++ "/" ++ "content/archive" ++ "/" ++ pfx ++ "/" ++
            (extractMetadata pfx aws "a.pdf").sanitizedFileName ++ ".md")
          (generateMarkdownContent (extractMetadata pfx aws "a.pdf"))
          = Except.ok () →
        write (cwd ++ "/" ++ "content/archive" ++ "/" ++ pfx ++ "/" ++
            (extractMetadata pfx aws "b.pdf").sanitizedFileName ++ ".md")
          (generateMarkdownContent (extractMetadata pfx aws "b.pdf"))
          = Except.error e →
        (createFilesFromDirectory write pfx aws "content/archive" cwd
            ["a.pdf", "b.pdf", "c.pdf"]).2
          = Except.error e)
  ∧ (∀ (fsRead : String → Except String String) (opts : UploadOptions)
        (c1 e : String),
        opts.dryRun = false →
        fsRead "d/a.pdf" = Except.ok c1 → fsRead "d/b.pdf" = Except.error e →
        (uploadAllLoop fsRead opts
            [("d/a.pdf", "a.pdf"), ("d/b.pdf", "b.pdf"), ("d/c.pdf", "c.pdf")]).1
          = Except.error e
        ∧ putKeys (uploadAllLoop fsRead opts
            [("d/a.pdf", "a.pdf"), ("d/b.pdf", "b.pdf"), ("d/c.pdf", "c.pdf")]).2
          = [getS3Key "a.pdf" (categoryOf opts)])
  ∧ (∀ (dl : String → Except String Unit) (e : String),
        dl "k1" = Except.ok () → dl "k2" = Except.error e →
        downloadAll dl ["k1", "k2", "k3"] = Except.error e) := by
  refine ⟨?_, ?_, ?_, ?_⟩
  · intro convert o1 o3 e h1 h2 h3
    show createPreviewsLoop convert ["a.pdf", "b.pdf", "c.pdf"] = [o1, o3]
    simp only [createPreviewsLoop, h1, h2, h3]
  · intro write e pfx aws cwd h1 h2
    have ha : processFileMd write pfx aws
        (cwd ++ "/" ++ "content/archive" ++ "/" ++ pfx) "a.pdf"
        = Except.ok (some
            (cwd ++ "/" ++ "content/archive" ++ "/" ++ pfx ++ "/" ++
               (extractMetadata pfx aws "a.pdf").sanitizedFileName ++ ".md",
             generateMarkdownContent (extractMetadata pfx aws "a.pdf"))) := by
      unfold processFileMd
      rw [if_neg (by decide)]
      simp only [h1]
    have hb : processFileMd write pfx aws
        (cwd ++ "/" ++ "content/archive" ++ "/" ++ pfx) "b.pdf"
        = Except.error e := by
      unfold processFileMd
      rw [if_neg (by decide)]
      simp only [h2]
    show promiseAll
        [processFileMd write pfx aws
           (cwd ++ "/" ++ "content/archive" ++ "/" ++ pfx) "a.pdf",
         processFileMd write pfx aws
           (cwd ++ "/" ++ "content/archive" ++ "/" ++ pfx) "b.pdf",
         processFileMd write pfx aws
           (cwd ++ "/" ++ "content/archive" ++ "/" ++ pfx) "c.pdf"]
        = Except.error e
    rw [ha, hb]
    rfl
  · intro fsRead opts c1 e hd h1 h2
    have ha : uploadFile fsRead opts "d/a.pdf" "a.pdf"
        = (Except.ok (),
           [UpEvent.put opts.bucket (getS3Key "a.pdf" (categoryOf opts)) c1
              (getMimeType "d/a.pdf"),
            UpEvent.logUploaded opts.bucket
              (getS3Key "a.pdf" (categoryOf opts))]) := by
      unfold uploadFile
      rw [hd, if_neg (by decide), h1]
      rfl
    have hb : uploadFile fsRead opts "d/b.pdf" "b.pdf"
        = (Except.error e, []) := by
      unfold uploadFile
      rw [hd, if_neg (by decide), h2]
    constructor
    · simp only [uploadAllLoop, ha, hb]
    · simp only [uploadAllLoop, ha, hb]
      rfl
  · intro dl e h1 h2
    have hd1 : downloadFileM dl "k1" = Except.ok () := by
      unfold downloadFileM
      rw [if_neg (by decide)]
      exact h1
    have hd2 : downloadFileM dl "k2" = Except.error e := by
      unfold downloadFileM
      rw [if_neg (by decide)]
      exact h2
    show downloadAllLoop dl [["k1", "k2", "k3"]] = Except.error e
    simp only [downloadAllLoop, List.map_cons, List.map_nil, hd1, hd2]
    have hp : promiseAll [Except.ok (), Except.error e, downloadFileM dl "k3"]
        = Except.error e := rfl
    rw [hp]

/-- Concrete preview converter failing exactly on `b.pdf`. -/
def convC2 : String → Except String String :=
  fun f => if f == "b.pdf" then Except.error "boom" else Except.ok (f ++ ".out")

/-- Concrete markdown write failing exactly on the output file `b.md`. -/
def writeC2 : String → String → Except String Unit :=
  fun p _ => if endsWithStr p "/b.md" then Except.error "boom" else Except.ok ()

/-- Concrete local filesystem whose file `d/b.pdf` is unreadable. -/
def fsReadC2 : String → Except String String :=
  fun p => if p == "d/b.pdf" then Except.error "ioerr" else Except.ok "data"

/-- Concrete download effect failing exactly on key `k2`. -/
def dlC2 : String → Except String Unit :=
  fun k => if k == "k2" then Except.error "neterr" else Except.ok ()

/-- Concrete upload options with dry-run enabled. -/
def optsDry : UploadOptions :=
  { bucket := "bkt", region := "us-east-1", localPath := "d",
    defaultCategory := some "misc", dryRun := true }

/-- Concrete upload options for a real run. -/
def optsReal : UploadOptions :=
  { bucket := "bkt", region := "us-east-1", localPath := "d",
    defaultCategory := some "misc", dryRun := false }

/-- Claim C2 witness: the four batch behaviours at concrete three-item
batches whose second item fails. -/
theorem C2_failure_isolation_witness :
    createPreviews convC2 ["a.pdf", "b.pdf", "c.pdf"] = ["a.pdf.out", "c.pdf.out"]
  ∧ (createFilesFromDirectory writeC2 "mini" "https://b" "content/archive" "cw"
        ["a.pdf", "b.pdf", "c.pdf"]).2 = Except.error "boom"
  ∧ (uploadAllLoop fsReadC2 optsReal
        [("d/a.pdf", "a.pdf"), ("d/b.pdf", "b.pdf"), ("d/c.pdf", "c.pdf")]).1
      = Except.error "ioerr"
  ∧ downloadAll dlC2 ["k1", "k2", "k3"] = Except.error "neterr" :=
  ⟨C2_failure_isolation.1 convC2 "a.pdf.out" "c.pdf.out" "boom" rfl rfl rfl,
   C2_failure_isolation.2.1 writeC2 "boom" "mini" "https://b" "cw" rfl rfl,
   (C2_failure_isolation.2.2.1 fsReadC2 optsReal "data" "ioerr" rfl rfl rfl).1,
   C2_failure_isolation.2.2.2 dlC2 "neterr" rfl rfl⟩

/-! ## Claim C5 -/

/-- Claim C5: the uploaded object key is `{category}/{subfolder}/{filename}`
with the original filename verbatim, where the subfolder is `documents`
exactly for a lowercased `.pdf` extension and `images` for the other tracked
extensions; `manual.pdf` with category `misc` maps to
`misc/documents/manual.pdf` and `cover.png` to `misc/images/cover.png`. -/
theorem C5_s3_key_routing :
    (∀ fileName category : String,
        lowerStr (extname fileName) = ".pdf" →
        getS3Key fileName category
          = category ++ "/" ++ "documents" ++ "/" ++ fileName)
  ∧ (∀ fileName category : String,
        lowerStr (extname fileName) ∈ [".jpg", ".jpeg", ".png", ".gif", ".webp"] →
        getS3Key fileName category
          = category ++ "/" ++ "images" ++ "/" ++ fileName)
  ∧ getS3Key "manual.pdf" "misc" = "misc/documents/manual.pdf"
  ∧ getS3Key "cover.png" "misc" = "misc/images/cover.png" := by
  refine ⟨fun fileName category h => ?_, fun fileName category h => ?_, rfl, rfl⟩
  · simp only [getS3Key, h]
    rfl
  · simp only [List.mem_cons, List.not_mem_nil, or_false] at h
    rcases h with h | h | h | h | h <;> simp only [getS3Key, h] <;> rfl

/-- Claim C5 witness: both routing conjuncts applied at the concrete file
names of the claim. -/
theorem C5_s3_key_routing_witness :
    getS3Key "manual.pdf" "misc" = "misc" ++ "/" ++ "documents" ++ "/" ++ "manual.pdf"
  ∧ getS3Key "cover.png" "misc" = "misc" ++ "/" ++ "images" ++ "/" ++ "cover.png" :=
  ⟨C5_s3_key_routing.1 "manual.pdf" "misc" rfl,
   C5_s3_key_routing.2.1 "cover.png" "misc" (by decide)⟩

/-! ## Claim C6 -/

/-- The effective MaxKeys of the downloader is always positive. -/
theorem one_le_effMaxKeys (mk : Nat) : 1 ≤ effMaxKeys mk := by
  unfold effMaxKeys
  split
  · omega
  · rename_i h
    have hne : mk ≠ 0 := by simpa using h
    omega

/-- Concatenating all pages of the listing loop recovers the full remote
listing in order. -/
theorem listPagesAux_flatten (m : Nat) (ks : List String) :
    (listPagesAux m ks).flatten = ks := by
  unfold listPagesAux
  split
  · simp
  · rw [List.flatten_cons, listPagesAux_flatten m (ks.drop (m + 1)),
      List.take_append_drop]
termination_by ks.length
decreasing_by
  simp only [List.length_drop]
  omega

/-- Every page of the listing loop holds at most `m + 1` keys. -/
theorem listPagesAux_bound (m : Nat) (ks : List String) :
    (listPagesAux m ks).all (fun p => decide (p.length ≤ m + 1)) = true := by
  unfold listPagesAux
  split
  · rename_i h
    simp only [List.all_cons, List.all_nil, Bool.and_true, decide_eq_true_eq]
    exact h
  · rw [List.all_cons, Bool.and_eq_true]
    refine ⟨by simp [List.length_take], listPagesAux_bound m (ks.drop (m + 1))⟩
termination_by ks.length
decreasing_by
  simp only [List.length_drop]
  omega

/-- The number of requests the listing loop makes for `n` keys with page
size `m + 1` is `1 + (n - 1) / (m + 1)`. -/
theorem listPagesAux_length (m : Nat) (ks : List String) :
    (listPagesAux m ks).length = 1 + (ks.length - 1) / (m + 1) := by
  unfold listPagesAux
  split
  · rename_i h
    have hz : (ks.length - 1) / (m + 1) = 0 := Nat.div_eq_of_lt (by omega)
    simp [hz]
  · rename_i h
    rw [List.length_cons, listPagesAux_length m (ks.drop (m + 1)),
      List.length_drop]
    have h2 : (ks.length - 1) / (m + 1)
        = ((ks.length - 1) - (m + 1)) / (m + 1) + 1 :=
      Nat.div_eq_sub_div (by omega) (by omega)
    have h3 : ks.length - (m + 1) - 1 = ks.length - 1 - (m + 1) := by omega
    rw [h3, h2]
    omega
termination_by ks.length
decreasing_by
  simp only [List.length_drop]
  omega

/-- Claim C6: `listObjects` returns every key under the prefix, following
continuation tokens until none remains; MaxKeys bounds each page but not the
total; a listing of 2500 keys with MaxKeys 1000 returns exactly 2500 keys
across 3 requests, concatenated in page order. -/
theorem C6_list_pagination :
    (∀ (mk : Nat) (remoteKeys : List String),
        (listObjects mk remoteKeys).1 = remoteKeys)
  ∧ (∀ (mk : Nat) (remoteKeys : List String),
        (listPagesAux (effMaxKeys mk - 1) remoteKeys).all
          (fun p => decide (p.length ≤ effMaxKeys mk)) = true)
  ∧ (listObjects 1000 (List.replicate 2500 "key")).1.length = 2500
  ∧ (listObjects 1000 (List.replicate 2500 "key")).2 = 3 := by
  refine ⟨fun mk remoteKeys => listPagesAux_flatten _ _, fun mk remoteKeys => ?_,
    ?_, ?_⟩
  · have h := listPagesAux_bound (effMaxKeys mk - 1) remoteKeys
    rw [Nat.sub_add_cancel (one_le_effMaxKeys mk)] at h
    exact h
  · have h1 : (listObjects 1000 (List.replicate 2500 "key")).1
        = List.replicate 2500 "key" := listPagesAux_flatten _ _
    rw [h1, List.length_replicate]
  · show (listPagesAux (effMaxKeys 1000 - 1)
        (List.replicate 2500 "key")).length = 3
    rw [listPagesAux_length, List.length_replicate]
    norm_num [effMaxKeys]

/-! ## Claim C7 -/

/-- Put-request counting distributes over trace concatenation. -/
theorem putCount_append (a b : List UpEvent) :
    putCount (a ++ b) = putCount a + putCount b := by
  simp [putCount, List.filter_append]

/-- Dry-run key logging distributes over trace concatenation. -/
theorem dryRunKeys_append (a b : List UpEvent) :
    dryRunKeys (a ++ b) = dryRunKeys a ++ dryRunKeys b := by
  simp [dryRunKeys]

/-- Success counting distributes over trace concatenation. -/
theorem successCount_append (a b : List UpEvent) :
    successCount (a ++ b) = successCount a + successCount b := by
  simp [successCount, List.filter_append]

/-- Claim C7 (amended): a dry run issues zero Put requests, logs for each
enumerated item exactly the key a real run would write
(`getS3Key (basename, category)`), completes successfully, and reports every
item as a success — so its success count is the item count, which equals the
real run's success count whenever the real run's file reads all succeed (the
two counts differ when a read fails, see the counterexample). -/
theorem C7_dry_run :
    ∀ (fsRead : String → Except String String) (opts : UploadOptions)
      (files : List (String × String)),
      opts.dryRun = true →
      putCount (uploadAllLoop fsRead opts files).2 = 0
      ∧ dryRunKeys (uploadAllLoop fsRead opts files).2
          = files.map (fun it => getS3Key (basenameStr it.1) (categoryOf opts))
      ∧ (uploadAllLoop fsRead opts files).1 = Except.ok ()
      ∧ successCount (uploadAllLoop fsRead opts files).2 = files.length
      ∧ (∀ fsRead2 : String → Except String String,
          (∀ it ∈ files, ∃ c, fsRead2 it.1 = Except.ok c) →
          successCount (uploadAllLoop fsRead2
              { opts with dryRun := false } files).2 = files.length) := by
  intro fsRead opts files hd
  induction files with
  | nil =>
    exact ⟨rfl, rfl, rfl, rfl, fun _ _ => rfl⟩
  | cons it rest ih =>
    obtain ⟨fp, rp⟩ := it
    obtain ⟨h1, h2, h3, h4, h5⟩ := ih
    have hu : uploadFile fsRead opts fp rp
        = (Except.ok (), [UpEvent.logDryRun opts.bucket
            (getS3Key (basenameStr fp) (categoryOf opts))]) := by
      unfold uploadFile
      rw [hd]
      rfl
    have hstep : uploadAllLoop fsRead opts ((fp, rp) :: rest)
        = ((uploadAllLoop fsRead opts rest).1,
           [UpEvent.logDryRun opts.bucket
              (getS3Key (basenameStr fp) (categoryOf opts))]
             ++ (uploadAllLoop fsRead opts rest).2) := by
      rcases hrest : uploadAllLoop fsRead opts rest with ⟨r, evs⟩
      simp only [uploadAllLoop, hu, hrest]
    refine ⟨?_, ?_, ?_, ?_, ?_⟩
    · rw [hstep, putCount_append, h1]
      rfl
    · rw [hstep, dryRunKeys_append, h2, List.map_cons]
      rfl
    · rw [hstep]
      exact h3
    · rw [hstep, successCount_append, h4, List.length_cons]
      have hone0 : successCount [UpEvent.logDryRun opts.bucket
          (getS3Key (basenameStr fp) (categoryOf opts))] = 1 := rfl
      rw [hone0]
      omega
    · intro fsRead2 hok
      obtain ⟨c, hc⟩ := hok (fp, rp) (List.mem_cons_self _ _)
      have hu2 : uploadFile fsRead2 { opts with dryRun := false } fp rp
          = (Except.ok (),
             [UpEvent.put opts.bucket
                (getS3Key (basenameStr fp) (categoryOf { opts with dryRun := false }))
                c (getMimeType fp),
              UpEvent.logUploaded opts.bucket
                (getS3Key (basenameStr fp)
                  (categoryOf { opts with dryRun := false }))]) := by
        unfold uploadFile
        rw [if_neg (by simp), hc]
      have hsucc := h5 fsRead2 (fun x hx => hok x (List.mem_cons_of_mem _ hx))
      rcases hrest2 : uploadAllLoop fsRead2 { opts with dryRun := false } rest
        with ⟨r2, evs2⟩
      rw [hrest2] at hsucc
      simp only at hsucc
      have hstep2 : uploadAllLoop fsRead2 { opts with dryRun := false }
            ((fp, rp) :: rest)
          = (r2, [UpEvent.put opts.bucket
                (getS3Key (basenameStr fp) (categoryOf { opts with dryRun := false }))
                c (getMimeType fp),
              UpEvent.logUploaded opts.bucket
                (getS3Key (basenameStr fp)
                  (categoryOf { opts with dryRun := false }))] ++ evs2) := by
        simp only [uploadAllLoop, hu2, hrest2]
      rw [hstep2, successCount_append]
      have hone : successCount
          [UpEvent.put opts.bucket
             (getS3Key (basenameStr fp) (categoryOf { opts with dryRun := false }))
             c (getMimeType fp),
           UpEvent.logUploaded opts.bucket
             (getS3Key (basenameStr fp)
               (categoryOf { opts with dryRun := false }))] = 1 := rfl
      rw [hone, hsucc, List.length_cons]
      omega

/-- A local filesystem on which every read fails. -/
def fsUnreadable : String → Except String String :=
  fun _ => Except.error "EACCES"

/-- Claim C7 counterexample: over the single-item batch whose file is
unreadable, the dry run reports one success while the real run reports zero
and aborts with the read error, so the dry-run success count does not equal
the real run's. -/
theorem C7_counterexample :
    successCount (uploadAllLoop fsUnreadable optsDry [("d/a.pdf", "a.pdf")]).2 = 1
  ∧ successCount (uploadAllLoop fsUnreadable optsReal [("d/a.pdf", "a.pdf")]).2 = 0
  ∧ (uploadAllLoop fsUnreadable optsReal [("d/a.pdf", "a.pdf")]).1
      = Except.error "EACCES"
  ∧ successCount (uploadAllLoop fsUnreadable optsDry [("d/a.pdf", "a.pdf")]).2
      ≠ successCount (uploadAllLoop fsUnreadable optsReal [("d/a.pdf", "a.pdf")]).2 := by
  refine ⟨rfl, rfl, rfl, by decide⟩

/-- A local filesystem on which every read succeeds (returning the path as
content). -/
def fsGood : String → Except String String := fun p => Except.ok p

/-- A concrete two-item enumeration (one PDF, one image in a subdirectory). -/
def dfiles : List (String × String) :=
  [("d/a.pdf", "a.pdf"), ("d/sub/b.png", "sub/b.png")]

/-- Claim C7 witness: the dry-run theorem applied to the concrete options and
items, including the matching fault-free real run. -/
theorem C7_dry_run_witness :
    dryRunKeys (uploadAllLoop fsGood optsDry dfiles).2
      = dfiles.map (fun it => getS3Key (basenameStr it.1) (categoryOf optsDry))
  ∧ successCount (uploadAllLoop fsGood { optsDry with dryRun := false } dfiles).2
      = dfiles.length :=
  ⟨(C7_dry_run fsGood optsDry dfiles rfl).2.1,
   (C7_dry_run fsGood optsDry dfiles rfl).2.2.2.2 fsGood
     (fun it _ => ⟨it.1, rfl⟩)⟩

/-! ## Claim C9 -/

/-- `takeWhile` stops exactly at the first failing element after a fully
satisfying block. -/
theorem takeWhile_all_append (p : Char → Bool) (l1 : List Char) (a : Char)
    (l2 : List Char) (h : l1.all p = true) (ha : p a = false) :
    (l1 ++ a :: l2).takeWhile p = l1 := by
  induction l1 with
  | nil => simp [List.takeWhile, ha]
  | cons c cs ih =>
    rw [List.all_cons, Bool.and_eq_true] at h
    simp only [List.cons_append, List.takeWhile_cons, h.1, if_true]
    exact congrArg (c :: ·) (ih h.2)

/-- The basename of `s ++ "/" ++ t` is `t` whenever `t` holds no slash. -/
theorem basenameStr_slash (s t : String)
    (h : t.data.all (fun c => c != '/') = true) :
    basenameStr (s ++ "/" ++ t) = t := by
  unfold basenameStr
  have hdata : (s ++ "/" ++ t).data = s.data ++ '/' :: t.data := by
    rw [String.data_append, String.data_append]
    simp
  rw [hdata, List.reverse_append]
  have hrev : ('/' :: t.data).reverse = t.data.reverse ++ '/' :: [] := by
    simp
  rw [hrev, List.append_assoc, List.cons_append, List.nil_append]
  rw [takeWhile_all_append _ _ _ _ (by simpa using h) rfl]
  simp

/-- Claim C9: the upload key derivation uses only the file's basename and
the category, never the walker's relative path: `uploadFile` is insensitive
to its `relativeFilePath` argument, equal basenames give equal keys, and in
a real run over a tree holding `x/manual.pdf` and `y/manual.pdf` the single
shared key ends up holding the later file's content (the second upload
overwrites the first). -/
theorem C9_key_ignores_subdirectory :
    (∀ (fsRead : String → Except String String) (opts : UploadOptions)
        (p r1 r2 : String),
        uploadFile fsRead opts p r1 = uploadFile fsRead opts p r2)
  ∧ (∀ (opts : UploadOptions) (p1 p2 : String),
        basenameStr p1 = basenameStr p2 →
        getS3Key (basenameStr p1) (categoryOf opts)
          = getS3Key (basenameStr p2) (categoryOf opts))
  ∧ (∀ (fsRead : String → Except String String) (opts : UploadOptions)
        (c1 c2 : String),
        opts.dryRun = false →
        fsRead (opts.localPath ++ "/" ++ "x" ++ "/" ++ "manual.pdf")
          = Except.ok c1 →
        fsRead (opts.localPath ++ "/" ++ "y" ++ "/" ++ "manual.pdf")
          = Except.ok c2 →
        getObject (bucketAfter (uploadAll fsRead opts
            [FsEntry.dir "x" [FsEntry.file "manual.pdf"],
             FsEntry.dir "y" [FsEntry.file "manual.pdf"]]).2)
          (getS3Key "manual.pdf" (categoryOf opts)) = some c2) := by
  refine ⟨fun _ _ _ _ _ => rfl, fun opts p1 p2 h => by rw [h], ?_⟩
  intro fsRead opts c1 c2 hd h1 h2
  have hbx : basenameStr (opts.localPath ++ "/" ++ "x" ++ "/" ++ "manual.pdf")
      = "manual.pdf" :=
    basenameStr_slash (opts.localPath ++ "/" ++ "x") "manual.pdf" (by decide)
  have hby : basenameStr (opts.localPath ++ "/" ++ "y" ++ "/" ++ "manual.pdf")
      = "manual.pdf" :=
    basenameStr_slash (opts.localPath ++ "/" ++ "y") "manual.pdf" (by decide)
  have hw : walkList opts.localPath ""
      [FsEntry.dir "x" [FsEntry.file "manual.pdf"],
       FsEntry.dir "y" [FsEntry.file "manual.pdf"]]
      = [(opts.localPath ++ "/" ++ "x" ++ "/" ++ "manual.pdf", "x/manual.pdf"),
         (opts.localPath ++ "/" ++ "y" ++ "/" ++ "manual.pdf", "y/manual.pdf")] := rfl
  have hua : uploadFile fsRead opts
      (opts.localPath ++ "/" ++ "x" ++ "/" ++ "manual.pdf") "x/manual.pdf"
      = (Except.ok (),
         [UpEvent.put opts.bucket (getS3Key "manual.pdf" (categoryOf opts)) c1
            (getMimeType (opts.localPath ++ "/" ++ "x" ++ "/" ++ "manual.pdf")),
          UpEvent.logUploaded opts.bucket
            (getS3Key "manual.pdf" (categoryOf opts))]) := by
    unfold uploadFile
    rw [hd, if_neg Bool.false_ne_true, h1]
    simp only [hbx]
  have hub : uploadFile fsRead opts
      (opts.localPath ++ "/" ++ "y" ++ "/" ++ "manual.pdf") "y/manual.pdf"
      = (Except.ok (),
         [UpEvent.put opts.bucket (getS3Key "manual.pdf" (categoryOf opts)) c2
            (getMimeType (opts.localPath ++ "/" ++ "y" ++ "/" ++ "manual.pdf")),
          UpEvent.logUploaded opts.bucket
            (getS3Key "manual.pdf" (categoryOf opts))]) := by
    unfold uploadFile
    rw [hd, if_neg Bool.false_ne_true, h2]
    simp only [hby]
  unfold uploadAll
  rw [hw]
  simp only [uploadAllLoop, hua, hub]
  simp [bucketAfter, applyPut, getObject]

/-- A local filesystem returning each path prefixed with `c:` as content. -/
def fsRead9 : String → Except String String :=
  fun p => Except.ok ("c:" ++ p)

/-- Claim C9 witness: the overwrite conjunct at a concrete filesystem and
options; the surviving object body comes from `y/manual.pdf`, the file
uploaded later. -/
theorem C9_key_ignores_subdirectory_witness :
    getObject (bucketAfter (uploadAll fsRead9 optsReal
        [FsEntry.dir "x" [FsEntry.file "manual.pdf"],
         FsEntry.dir "y" [FsEntry.file "manual.pdf"]]).2)
      (getS3Key "manual.pdf" (categoryOf optsReal)) = some "c:d/y/manual.pdf" :=
  C9_key_ignores_subdirectory.2.2 fsRead9 optsReal
    "c:d/x/manual.pdf" "c:d/y/manual.pdf" rfl rfl rfl

/-! ## Claim C10 -/

/-- Claim C10: in dry-run mode `uploadFile` succeeds before any read is
attempted (for every filesystem, including unreadable ones), whereas the
corresponding real run fails the item with the read error. -/
theorem C10_dry_run_skips_read :
    (∀ (fsRead : String → Except String String) (opts : UploadOptions)
        (p r : String),
        opts.dryRun = true → (uploadFile fsRead opts p r).1 = Except.ok ())
  ∧ (∀ (fsRead : String → Except String String) (opts : UploadOptions)
        (p r e : String),
        opts.dryRun = false → fsRead p = Except.error e →
        (uploadFile fsRead opts p r).1 = Except.error e) := by
  constructor
  · intro fsRead opts p r hd
    unfold uploadFile
    rw [hd]
    rfl
  · intro fsRead opts p r e hd hr
    unfold uploadFile
    rw [hd, if_neg Bool.false_ne_true, hr]

/-- Claim C10 witness: both conjuncts at the all-unreadable filesystem — the
dry run succeeds on `d/a.pdf` while the real run fails it with the read
error. -/
theorem C10_dry_run_skips_read_witness :
    (uploadFile fsUnreadable optsDry "d/a.pdf" "a.pdf").1 = Except.ok ()
  ∧ (uploadFile fsUnreadable optsReal "d/a.pdf" "a.pdf").1
      = Except.error "EACCES" :=
  ⟨C10_dry_run_skips_read.1 fsUnreadable optsDry "d/a.pdf" "a.pdf" rfl,
   C10_dry_run_skips_read.2 fsUnreadable optsReal "d/a.pdf" "a.pdf" "EACCES"
     rfl rfl⟩
